import Mathlib

/-!
Shallow embedding of fnm's configuration-resolution layer (`src/config.rs`).

Paths are lists of components; the filesystem is the list of directories that
exist; the host environment carries the (possibly undeterminable) home and
platform-data directories. Filesystem-touching operations thread the
filesystem state explicitly. Collaborator code that `src/config.rs` uses but
that is not part of the given sources (`PathExt`, `dirs`, `url::Url`,
`LogLevel`, `Arch`, `VersionFileStrategy`, and the structopt-driven
construction) is modelled from the specification, as marked on each such
definition.
-/

/-- A filesystem path, represented by its list of components. -/
abbrev FilePath' := List String

/-- `PathBuf::join` with a single extra component. -/
def pathJoin (p : FilePath') (c : String) : FilePath' := p ++ [c]

/-- All nonempty prefixes of a path: the path itself and every ancestor. -/
def pathInits (p : FilePath') : List FilePath' :=
  (List.range p.length).map (fun n => p.take (n + 1))

/-- The filesystem, modelled as the list of directories that currently exist. -/
abbrev FS := List FilePath'

/-- `Path::exists`. -/
def pathExists (fs : FS) (p : FilePath') : Bool := decide (p ∈ fs)

/-- `std::fs::create_dir_all`: creates the directory and all missing ancestors. -/
def createDirAll (p : FilePath') (fs : FS) : FS := pathInits p ++ fs

/-- Modelled from the spec: `PathExt::ensure_exists_silently` (module
`path_ext`, not among the given sources) — an idempotent "ensure directory"
operation that creates the directory (with missing parents) when absent,
treats an already existing directory as success, and hands back the path. -/
def ensureExistsSilently (p : FilePath') (fs : FS) : FilePath' × FS :=
  if pathExists fs p then (p, fs) else (p, createDirAll p fs)

/-- Modelled from the spec: the host environment as seen through
`dirs::home_dir` and `dirs::data_dir` (crate `dirs`, not among the given
sources); either directory may be undeterminable. -/
structure HostEnv where
  home_dir : Option FilePath'
  data_dir : Option FilePath'
deriving DecidableEq, Repr

/-- The errors construction can surface: an enumerated field given a token
outside its accepted set (the error carries the full accepted set), or a
mirror value that fails URL parsing. -/
inductive ConfigError where
  | invalidEnumToken (field : String) (given : String) (accepted : List String)
  | urlParseError (given : String)
deriving DecidableEq, Repr

/-- Modelled from the spec: `url::Url` (crate `url`, not among the given
sources), kept as its textual serialization; values are built only through
`Url.parse`. -/
structure Url where
  serialization : String
deriving DecidableEq, Repr

/-- Splits a character list at the first occurrence of a separator,
returning the parts before and after it, or `none` when it never occurs. -/
def firstSplitOnSep (sep : List Char) : List Char → Option (List Char × List Char)
  | [] => none
  | c :: rest =>
    if sep.isPrefixOf (c :: rest) then some ([], (c :: rest).drop sep.length)
    else
      match firstSplitOnSep sep rest with
      | some (pre, post) => some (c :: pre, post)
      | none => none

/-- Modelled from the spec: syntactic validity of an absolute URL — a
nonempty alphabetic scheme, the `://` separator, and a nonempty remainder. -/
def isValidAbsoluteUrl (s : String) : Bool :=
  match firstSplitOnSep "://".toList s.toList with
  | some (scheme, rest) =>
    !scheme.isEmpty && scheme.all Char.isAlpha && !rest.isEmpty
  | none => false

/-- Modelled from the spec: `Url::parse` — a syntactically valid absolute URL
is accepted (kept in its textual form), anything else is a URL-parse error. -/
def Url.parse (s : String) : Except ConfigError Url :=
  if isValidAbsoluteUrl s then .ok ⟨s⟩ else .error (.urlParseError s)

/-- Modelled from the spec: `LogLevel` (module `log_level`, not among the
given sources) — a closed set of verbosity levels. -/
inductive LogLevel where
  | error | warn | info | debug | trace
deriving DecidableEq, Repr

/-- The accepted textual forms of `LogLevel`, with their meanings. -/
def LogLevel.table : List (String × LogLevel) :=
  [("error", .error), ("warn", .warn), ("info", .info),
   ("debug", .debug), ("trace", .trace)]

/-- Modelled from the spec: `Arch` (module `arch`, not among the given
sources) — the closed set of supported CPU architectures. -/
inductive Arch where
  | x86 | x64 | arm64 | armv7l
deriving DecidableEq, Repr

/-- The accepted textual forms of `Arch`, with their meanings. -/
def Arch.table : List (String × Arch) :=
  [("x86", .x86), ("x64", .x64), ("arm64", .arm64), ("armv7l", .armv7l)]

/-- Modelled from the spec: the architecture of the running binary, the
default for the `arch` field; fixed here to one concrete variant. -/
def Arch.host : Arch := .x64

/-- The textual form of the host architecture, used as the default token. -/
def Arch.hostToken : String := "x64"

/-- Modelled from the spec: `VersionFileStrategy` (module
`version_file_strategy`, not among the given sources). -/
inductive VersionFileStrategy where
  | local | recursive
deriving DecidableEq, Repr

/-- The accepted textual forms of `VersionFileStrategy`. -/
def VersionFileStrategy.table : List (String × VersionFileStrategy) :=
  [("local", .local), ("recursive", .recursive)]

/-- Parsing of an enumerated field from its accepted-token table: an
unrecognized token is an error naming the full accepted set. -/
def enumParse {α : Type} (field : String) (table : List (String × α))
    (t : String) : Except ConfigError α :=
  match table.find? (fun q => q.1 == t) with
  | some q => .ok q.2
  | none => .error (.invalidEnumToken field t (table.map Prod.fst))

/-- `LogLevel` parsing (accepted set as in `LogLevel::possible_values`). -/
def LogLevel.parse (t : String) : Except ConfigError LogLevel :=
  enumParse "log-level" LogLevel.table t

/-- `Arch` parsing (accepted set as in the architecture token set). -/
def Arch.parse (t : String) : Except ConfigError Arch :=
  enumParse "arch" Arch.table t

/-- `VersionFileStrategy` parsing (as in
`VersionFileStrategy::possible_values`). -/
def VersionFileStrategy.parse (t : String) :
    Except ConfigError VersionFileStrategy :=
  enumParse "version-file-strategy" VersionFileStrategy.table t

/-- Splits a character list on a one-character separator. -/
def splitOnChar (sep : Char) : List Char → List (List Char)
  | [] => [[]]
  | c :: rest =>
    if c = sep then [] :: splitOnChar sep rest
    else
      match splitOnChar sep rest with
      | [] => [[c]]
      | a :: as => (c :: a) :: as

/-- A textual path split into components; empty components are dropped. -/
def pathOfString (s : String) : FilePath' :=
  ((splitOnChar '/' s.toList).map (fun l => String.mk l)).filter
    (fun c => !c.isEmpty)

/-- `FnmConfig` (src/config.rs): the configuration value object. -/
structure FnmConfig where
  node_dist_mirror : Url
  base_dir : Option FilePath'
  multishell_path : Option FilePath'
  log_level : LogLevel
  arch : Arch
  version_file_strategy : VersionFileStrategy
deriving DecidableEq, Repr

/-- `impl Default for FnmConfig` (src/config.rs): note that the mirror is
`Url::parse("https://nodejs.org/dist/")` — with a trailing slash, unlike the
structopt `default_value` string `"https://nodejs.org/dist"`. -/
def FnmConfig.default : FnmConfig where
  node_dist_mirror := ⟨"https://nodejs.org/dist/"⟩
  base_dir := none
  multishell_path := none
  log_level := .info
  arch := Arch.host
  version_file_strategy := .local

/-- The raw textual sources structopt consults for one field: an explicit
command-line flag value and an environment-variable value, either absent. -/
structure RawSources where
  flag_node_dist_mirror : Option String
  env_node_dist_mirror : Option String
  flag_base_dir : Option String
  env_base_dir : Option String
  flag_multishell_path : Option String
  env_multishell_path : Option String
  flag_log_level : Option String
  env_log_level : Option String
  flag_arch : Option String
  env_arch : Option String
  flag_version_file_strategy : Option String
  env_version_file_strategy : Option String
deriving DecidableEq, Repr

/-- Three-tier resolution of a defaulted field: flag over environment
variable over compiled-in default. -/
def resolveField (flag envVar : Option String) (dflt : String) : String :=
  match flag with
  | some v => v
  | none =>
    match envVar with
    | some v => v
    | none => dflt

/-- Two-tier resolution of an optional field (no compiled-in default):
flag over environment variable, else absent. -/
def resolveOptField (flag envVar : Option String) : Option String :=
  match flag with
  | some v => some v
  | none => envVar

/-- The resolved raw mirror string for a source set. -/
def resolvedMirrorStr (s : RawSources) : String :=
  resolveField s.flag_node_dist_mirror s.env_node_dist_mirror
    "https://nodejs.org/dist"

/-- The resolved raw log-level token for a source set. -/
def resolvedLogLevelStr (s : RawSources) : String :=
  resolveField s.flag_log_level s.env_log_level "info"

/-- The resolved raw architecture token for a source set. -/
def resolvedArchStr (s : RawSources) : String :=
  resolveField s.flag_arch s.env_arch Arch.hostToken

/-- The resolved raw version-file-strategy token for a source set. -/
def resolvedStrategyStr (s : RawSources) : String :=
  resolveField s.flag_version_file_strategy s.env_version_file_strategy "local"

/-- Modelled from the spec: construction of `FnmConfig` as the structopt
derive performs it (the derive itself is generated code, not among the given
sources; the flag names, env-var names, `default_value`s and
`possible_values` are the attributes in src/config.rs). Each field is
resolved flag-over-env-over-default and then parsed; a parse failure of the
resolved value is an error, never a fallback to the default. -/
def constructConfig (s : RawSources) : Except ConfigError FnmConfig :=
  match Url.parse (resolvedMirrorStr s) with
  | .error e => .error e
  | .ok mirror =>
    match LogLevel.parse (resolvedLogLevelStr s) with
    | .error e => .error e
    | .ok lvl =>
      match Arch.parse (resolvedArchStr s) with
      | .error e => .error e
      | .ok archVal =>
        match VersionFileStrategy.parse (resolvedStrategyStr s) with
        | .error e => .error e
        | .ok strat =>
          .ok
            { node_dist_mirror := mirror
              base_dir := (resolveOptField s.flag_base_dir s.env_base_dir).map
                pathOfString
              multishell_path :=
                (resolveOptField s.flag_multishell_path
                  s.env_multishell_path).map pathOfString
              log_level := lvl
              arch := archVal
              version_file_strategy := strat }

deriving instance DecidableEq for Except

/-- The outcome of a resolution step: a value, or the fatal abort raised by
`Option::expect` in src/config.rs. -/
inductive Resolution (α : Type) where
  | ok (val : α)
  | fatal (msg : String)
deriving DecidableEq, Repr

/-- `FnmConfig::base_dir_with_default` (src/config.rs): an explicit override
is returned as-is; otherwise the legacy `~/.fnm` is returned when it exists;
otherwise the modern `data_dir/fnm` is ensured to exist and returned, and the
call aborts when the data directory is undeterminable. -/
def FnmConfig.base_dir_with_default (c : FnmConfig) (env : HostEnv)
    (fs : FS) : Resolution (FilePath' × FS) :=
  match c.base_dir with
  | some dir => .ok (dir, fs)
  | none =>
    let legacy :=
      (env.home_dir.map (fun d => pathJoin d ".fnm")).filter
        (fun d => pathExists fs d)
    let modern := env.data_dir.map (fun d => pathJoin d "fnm")
    match legacy with
    | some dir => .ok (dir, fs)
    | none =>
      match modern with
      | some dir => .ok (ensureExistsSilently dir fs)
      | none => .fatal "Can't get data directory"

/-- `FnmConfig::installations_dir` (src/config.rs). -/
def FnmConfig.installations_dir (c : FnmConfig) (env : HostEnv) (fs : FS) :
    Resolution (FilePath' × FS) :=
  match c.base_dir_with_default env fs with
  | .fatal m => .fatal m
  | .ok (base, fs1) => .ok (ensureExistsSilently (pathJoin base "node-versions") fs1)

/-- `FnmConfig::aliases_dir` (src/config.rs). -/
def FnmConfig.aliases_dir (c : FnmConfig) (env : HostEnv) (fs : FS) :
    Resolution (FilePath' × FS) :=
  match c.base_dir_with_default env fs with
  | .fatal m => .fatal m
  | .ok (base, fs1) => .ok (ensureExistsSilently (pathJoin base "aliases") fs1)

/-- `FnmConfig::default_version_dir` (src/config.rs): joins `default` onto
`aliases_dir` with no ensure-exists step of its own. -/
def FnmConfig.default_version_dir (c : FnmConfig) (env : HostEnv) (fs : FS) :
    Resolution (FilePath' × FS) :=
  match c.aliases_dir env fs with
  | .fatal m => .fatal m
  | .ok (p, fs1) => .ok (pathJoin p "default", fs1)

/-- Strict nesting of one path under another. -/
def isUnder (base p : FilePath') : Bool :=
  base.isPrefixOf p && decide (base.length < p.length)

/-! ## Helper lemmas about the filesystem model -/

theorem mem_pathInits_isPre {q p : FilePath'} (h : q ∈ pathInits p) :
    q <+: p := by
  simp only [pathInits, List.mem_map, List.mem_range] at h
  obtain ⟨n, _, rfl⟩ := h
  exact List.take_prefix _ _

theorem self_mem_pathInits {p : FilePath'} (h : p ≠ []) : p ∈ pathInits p := by
  simp only [pathInits, List.mem_map, List.mem_range]
  have hlen : 0 < p.length := List.length_pos.mpr h
  refine ⟨p.length - 1, by omega, ?_⟩
  rw [Nat.sub_add_cancel hlen]
  exact List.take_length p

theorem pathExists_append {fs1 fs2 : FS} {q : FilePath'} :
    pathExists (fs1 ++ fs2) q = (pathExists fs1 q || pathExists fs2 q) := by
  simp [pathExists, List.mem_append, Bool.decide_or]

theorem pathJoin_ne_nil (p : FilePath') (c : String) : pathJoin p c ≠ [] := by
  simp [pathJoin]

theorem ensure_fst (p : FilePath') (fs : FS) :
    (ensureExistsSilently p fs).1 = p := by
  unfold ensureExistsSilently
  split <;> rfl

theorem ensure_eq (p : FilePath') (fs : FS) :
    ensureExistsSilently p fs = (p, (ensureExistsSilently p fs).2) := by
  unfold ensureExistsSilently
  split <;> rfl

theorem ensure_exists_after {p : FilePath'} (fs : FS) (h : p ≠ []) :
    pathExists (ensureExistsSilently p fs).2 p = true := by
  unfold ensureExistsSilently
  split
  · next hx => exact hx
  · next hx =>
    simp only [createDirAll, pathExists_append, Bool.or_eq_true]
    exact Or.inl (by simp [pathExists, self_mem_pathInits h])

theorem ensure_already {p : FilePath'} {fs : FS}
    (h : pathExists fs p = true) : ensureExistsSilently p fs = (p, fs) := by
  unfold ensureExistsSilently
  rw [h]
  rfl

theorem ensure_preserves_absent {p q : FilePath'} {fs : FS}
    (hq : pathExists fs q = false) (hpre : ¬ q <+: p) :
    pathExists (ensureExistsSilently p fs).2 q = false := by
  unfold ensureExistsSilently
  split
  · exact hq
  · simp only [createDirAll, pathExists_append, Bool.or_eq_false_iff]
    refine ⟨?_, hq⟩
    simp only [pathExists, decide_eq_false_iff_not]
    exact fun hmem => hpre (mem_pathInits_isPre hmem)

theorem isUnder_pathJoin (base : FilePath') (c : String) :
    isUnder base (pathJoin base c) = true := by
  simp [isUnder, pathJoin, List.isPrefixOf_iff_prefix]

theorem isUnder_pathJoin2 (base : FilePath') (c d : String) :
    isUnder base (pathJoin (pathJoin base c) d) = true := by
  simp only [isUnder, pathJoin, List.append_assoc, Bool.and_eq_true,
    List.isPrefixOf_iff_prefix, decide_eq_true_eq]
  exact ⟨⟨[c] ++ [d], rfl⟩, by simp⟩

theorem enumParse_not_mem {α : Type} (field : String)
    (table : List (String × α)) (t : String)
    (h : t ∉ table.map Prod.fst) :
    enumParse field table t =
      .error (.invalidEnumToken field t (table.map Prod.fst)) := by
  unfold enumParse
  have hfind : table.find? (fun q => q.1 == t) = none := by
    apply List.find?_eq_none.mpr
    intro x hx
    simp only [beq_iff_eq]
    intro hteq
    exact h (hteq ▸ List.mem_map.mpr ⟨x, hx, rfl⟩)
  rw [hfind]

/-! ## Claim theorems -/

/-- C1: when the base-directory override is set to `p`,
`base_dir_with_default` returns `p` unchanged for every environment and
every filesystem state — in particular whether or not `p` exists — and
leaves the filesystem untouched (no existence check, no creation). -/
theorem base_dir_override_returned (c : FnmConfig) (env : HostEnv) (fs : FS)
    (p : FilePath') (h : c.base_dir = some p) :
    c.base_dir_with_default env fs = .ok (p, fs) := by
  unfold FnmConfig.base_dir_with_default
  rw [h]

/-- Witness for C1 at a concrete override that does not exist on disk. -/
theorem base_dir_override_returned_witness :
    ({ FnmConfig.default with base_dir := some ["opt", "fnm"] } :
        FnmConfig).base_dir = some ["opt", "fnm"] ∧
    ({ FnmConfig.default with base_dir := some ["opt", "fnm"] } :
        FnmConfig).base_dir_with_default ⟨some ["home"], some ["data"]⟩ [] =
      .ok (["opt", "fnm"], []) :=
  ⟨rfl, base_dir_override_returned _ _ _ _ rfl⟩

/-- C2: with no override and the legacy `~/.fnm` existing, the legacy path
is returned unchanged and the filesystem is untouched (no creation),
whatever the data directory is — in particular even when the modern
directory also exists. -/
theorem legacy_dir_returned (c : FnmConfig) (env : HostEnv) (fs : FS)
    (hp : FilePath') (hb : c.base_dir = none) (hh : env.home_dir = some hp)
    (hex : pathExists fs (pathJoin hp ".fnm") = true) :
    c.base_dir_with_default env fs = .ok (pathJoin hp ".fnm", fs) := by
  unfold FnmConfig.base_dir_with_default
  rw [hb, hh]
  simp [Option.filter, hex]

/-- Witness for C2: both the legacy and the modern directory exist; the
legacy one is returned and nothing is created. -/
theorem legacy_dir_returned_witness :
    FnmConfig.default.base_dir = none ∧
    pathExists [["home", ".fnm"], ["data", "fnm"]]
      (pathJoin ["home"] ".fnm") = true ∧
    FnmConfig.default.base_dir_with_default ⟨some ["home"], some ["data"]⟩
        [["home", ".fnm"], ["data", "fnm"]] =
      .ok (["home", ".fnm"], [["home", ".fnm"], ["data", "fnm"]]) :=
  ⟨rfl, rfl,
    legacy_dir_returned FnmConfig.default ⟨some ["home"], some ["data"]⟩
      [["home", ".fnm"], ["data", "fnm"]] ["home"] rfl rfl (by rfl)⟩

/-- C7: with no override and neither a home directory nor a data directory
determinable, `base_dir_with_default` aborts fatally with the diagnostic of
the `expect` call; no path is returned. -/
theorem unresolvable_root_fatal (c : FnmConfig) (env : HostEnv) (fs : FS)
    (hb : c.base_dir = none) (hh : env.home_dir = none)
    (hd : env.data_dir = none) :
    c.base_dir_with_default env fs = .fatal "Can't get data directory" := by
  unfold FnmConfig.base_dir_with_default
  rw [hb, hh, hd]
  rfl

/-- Witness for C7 on a fully undeterminable environment. -/
theorem unresolvable_root_fatal_witness :
    FnmConfig.default.base_dir = none ∧
    FnmConfig.default.base_dir_with_default ⟨none, none⟩ [] =
      .fatal "Can't get data directory" :=
  ⟨rfl, unresolvable_root_fatal _ _ _ rfl rfl rfl⟩

/-- C10: with no override and the legacy location not usable (for every
determinable home directory, `~/.fnm` does not exist), resolution aborts
exactly when the data directory is undeterminable: it is fatal when
`data_dir` is `none` (even though a home directory may be determinable), and
it succeeds with the modern `data_dir/fnm` whenever `data_dir` is
determinable (even when the home directory is not). -/
theorem fatal_iff_no_data_dir (c : FnmConfig) (env : HostEnv) (fs : FS)
    (hb : c.base_dir = none)
    (hleg : ∀ hp, env.home_dir = some hp →
      pathExists fs (pathJoin hp ".fnm") = false) :
    (env.data_dir = none →
      c.base_dir_with_default env fs = .fatal "Can't get data directory") ∧
    (∀ d, env.data_dir = some d →
      c.base_dir_with_default env fs =
        .ok (pathJoin d "fnm", (ensureExistsSilently (pathJoin d "fnm") fs).2)) := by
  constructor
  · intro hd
    unfold FnmConfig.base_dir_with_default
    rw [hb, hd]
    cases henv : env.home_dir with
    | none => rfl
    | some hp => simp [Option.filter, hleg hp henv]
  · intro d hd
    unfold FnmConfig.base_dir_with_default
    rw [hb, hd]
    cases henv : env.home_dir with
    | none => exact congrArg Resolution.ok (ensure_eq _ _)
    | some hp =>
      have hfilter :
          Option.filter (fun q => pathExists fs q)
            (Option.map (fun q => pathJoin q ".fnm") (some hp)) = none := by
        simp [Option.filter, hleg hp henv]
      rw [hfilter]
      exact congrArg Resolution.ok (ensure_eq _ _)

/-- Witness for C10: home is determinable but `~/.fnm` is absent, the data
directory is not determinable, and resolution is fatal. -/
theorem fatal_iff_no_data_dir_witness :
    FnmConfig.default.base_dir = none ∧
    pathExists [] (pathJoin ["home"] ".fnm") = false ∧
    FnmConfig.default.base_dir_with_default ⟨some ["home"], none⟩ [] =
      .fatal "Can't get data directory" :=
  ⟨rfl, rfl,
    (fatal_iff_no_data_dir FnmConfig.default ⟨some ["home"], none⟩ [] rfl
      (fun hp hh => by cases hh; rfl)).1 rfl⟩

/-- With no override, no usable legacy location, and a determinable data
directory, resolution returns the ensured modern path. -/
theorem base_dir_modern_helper (c : FnmConfig) (env : HostEnv) (fs : FS)
    (d : FilePath') (hb : c.base_dir = none) (hd : env.data_dir = some d)
    (hleg : ∀ hp, env.home_dir = some hp →
      pathExists fs (pathJoin hp ".fnm") = false) :
    c.base_dir_with_default env fs =
      .ok (pathJoin d "fnm",
        (ensureExistsSilently (pathJoin d "fnm") fs).2) := by
  unfold FnmConfig.base_dir_with_default
  rw [hb, hd]
  cases henv : env.home_dir with
  | none => exact congrArg Resolution.ok (ensure_eq _ _)
  | some hp =>
    have hfilter :
        Option.filter (fun q => pathExists fs q)
          (Option.map (fun q => pathJoin q ".fnm") (some hp)) = none := by
      simp [Option.filter, hleg hp henv]
    rw [hfilter]
    exact congrArg Resolution.ok (ensure_eq _ _)

/-- C3 counterexample: with no override, home `/home/u`, and a data
directory lying at `/home/u/.fnm`, the legacy path does not exist at first,
so the first resolution returns the modern path `/home/u/.fnm/fnm` and
creates it — which also creates `/home/u/.fnm` — and the second resolution
then returns the legacy path: the two calls in a row disagree. -/
theorem modern_twice_counterexample :
    pathExists [] (pathJoin ["home", "u"] ".fnm") = false ∧
    FnmConfig.default.base_dir_with_default
        ⟨some ["home", "u"], some ["home", "u", ".fnm"]⟩ [] =
      .ok (["home", "u", ".fnm", "fnm"],
        [["home"], ["home", "u"], ["home", "u", ".fnm"],
         ["home", "u", ".fnm", "fnm"]]) ∧
    FnmConfig.default.base_dir_with_default
        ⟨some ["home", "u"], some ["home", "u", ".fnm"]⟩
        [["home"], ["home", "u"], ["home", "u", ".fnm"],
         ["home", "u", ".fnm", "fnm"]] =
      .ok (["home", "u", ".fnm"],
        [["home"], ["home", "u"], ["home", "u", ".fnm"],
         ["home", "u", ".fnm", "fnm"]]) ∧
    (["home", "u", ".fnm"] : FilePath') ≠ ["home", "u", ".fnm", "fnm"] :=
  ⟨rfl, rfl, rfl, by decide⟩

/-- C3 (amended): with no override, the legacy location not existing, a
determinable data directory, and the legacy path not an ancestor of (or
equal to) the modern path — as with standard platform directories —
resolution returns the modern `data_dir/fnm`, creating it if absent; the
path exists afterwards, and a second call returns the very same path with
no error and no further filesystem change. -/
theorem modern_resolution_idempotent (c : FnmConfig) (env : HostEnv)
    (fs : FS) (d : FilePath') (hb : c.base_dir = none)
    (hd : env.data_dir = some d)
    (hleg : ∀ hp, env.home_dir = some hp →
      pathExists fs (pathJoin hp ".fnm") = false)
    (hsep : ∀ hp, env.home_dir = some hp →
      ¬ pathJoin hp ".fnm" <+: pathJoin d "fnm") :
    ∃ fs1,
      c.base_dir_with_default env fs = .ok (pathJoin d "fnm", fs1) ∧
      pathExists fs1 (pathJoin d "fnm") = true ∧
      c.base_dir_with_default env fs1 = .ok (pathJoin d "fnm", fs1) := by
  refine ⟨(ensureExistsSilently (pathJoin d "fnm") fs).2, ?_, ?_, ?_⟩
  · exact base_dir_modern_helper c env fs d hb hd hleg
  · exact ensure_exists_after fs (pathJoin_ne_nil d "fnm")
  · have hleg1 : ∀ hp, env.home_dir = some hp →
        pathExists (ensureExistsSilently (pathJoin d "fnm") fs).2
          (pathJoin hp ".fnm") = false :=
      fun hp hh => ensure_preserves_absent (hleg hp hh) (hsep hp hh)
    rw [base_dir_modern_helper c env _ d hb hd hleg1,
      ensure_already (ensure_exists_after fs (pathJoin_ne_nil d "fnm"))]

/-- Witness for C3 (amended) on a standard layout: home `/home`, data
directory `/usr/share`, initially empty filesystem. -/
theorem modern_resolution_idempotent_witness :
    FnmConfig.default.base_dir = none ∧
    pathExists [] (pathJoin ["home"] ".fnm") = false ∧
    ¬ pathJoin ["home"] ".fnm" <+: pathJoin ["usr", "share"] "fnm" ∧
    (∃ fs1,
      FnmConfig.default.base_dir_with_default
          ⟨some ["home"], some ["usr", "share"]⟩ [] =
        .ok (pathJoin ["usr", "share"] "fnm", fs1) ∧
      pathExists fs1 (pathJoin ["usr", "share"] "fnm") = true ∧
      FnmConfig.default.base_dir_with_default
          ⟨some ["home"], some ["usr", "share"]⟩ fs1 =
        .ok (pathJoin ["usr", "share"] "fnm", fs1)) :=
  ⟨rfl, rfl, by decide,
    modern_resolution_idempotent FnmConfig.default
      ⟨some ["home"], some ["usr", "share"]⟩ [] ["usr", "share"] rfl rfl
      (fun hp hh => by cases hh; rfl)
      (fun hp hh => by cases hh; decide)⟩

/-- C4 counterexample: with the base directory overridden to `/b` and an
empty filesystem, `default_version_dir` returns `/b/aliases/default`, but
that path does not exist after the call (only `/b` and `/b/aliases` were
created). -/
theorem default_version_dir_absent_counterexample :
    ({ FnmConfig.default with base_dir := some ["b"] } :
        FnmConfig).default_version_dir ⟨none, none⟩ [] =
      .ok (["b", "aliases", "default"], [["b"], ["b", "aliases"]]) ∧
    pathExists [["b"], ["b", "aliases"]] ["b", "aliases", "default"] = false :=
  ⟨rfl, rfl⟩

/-- C4 (amended): whenever the base directory resolves, `installations_dir`
and `aliases_dir` return paths strictly nested under it that exist on the
filesystem immediately after the call; `default_version_dir` returns a path
strictly nested under it whose parent `aliases` directory exists after the
call, but the `default` path itself is not created. -/
theorem derived_dirs_exist (c : FnmConfig) (env : HostEnv) (fs : FS)
    (base : FilePath') (fsb : FS)
    (h : c.base_dir_with_default env fs = .ok (base, fsb)) :
    (∃ fs1, c.installations_dir env fs =
        .ok (pathJoin base "node-versions", fs1) ∧
      pathExists fs1 (pathJoin base "node-versions") = true ∧
      isUnder base (pathJoin base "node-versions") = true) ∧
    (∃ fs2, c.aliases_dir env fs = .ok (pathJoin base "aliases", fs2) ∧
      pathExists fs2 (pathJoin base "aliases") = true ∧
      isUnder base (pathJoin base "aliases") = true) ∧
    (∃ fs3, c.default_version_dir env fs =
        .ok (pathJoin (pathJoin base "aliases") "default", fs3) ∧
      pathExists fs3 (pathJoin base "aliases") = true ∧
      isUnder base (pathJoin (pathJoin base "aliases") "default") = true) := by
  have hi : c.installations_dir env fs =
      .ok (pathJoin base "node-versions",
        (ensureExistsSilently (pathJoin base "node-versions") fsb).2) := by
    unfold FnmConfig.installations_dir
    rw [h]
    exact congrArg Resolution.ok (ensure_eq _ _)
  have ha : c.aliases_dir env fs =
      .ok (pathJoin base "aliases",
        (ensureExistsSilently (pathJoin base "aliases") fsb).2) := by
    unfold FnmConfig.aliases_dir
    rw [h]
    exact congrArg Resolution.ok (ensure_eq _ _)
  have hdv : c.default_version_dir env fs =
      .ok (pathJoin (pathJoin base "aliases") "default",
        (ensureExistsSilently (pathJoin base "aliases") fsb).2) := by
    unfold FnmConfig.default_version_dir
    rw [ha]
  exact ⟨⟨_, hi, ensure_exists_after _ (pathJoin_ne_nil _ _),
      isUnder_pathJoin _ _⟩,
    ⟨_, ha, ensure_exists_after _ (pathJoin_ne_nil _ _),
      isUnder_pathJoin _ _⟩,
    ⟨_, hdv, ensure_exists_after _ (pathJoin_ne_nil _ _),
      isUnder_pathJoin2 _ _ _⟩⟩

/-- Witness for C4 (amended) with the base directory overridden to `/b` on
an empty filesystem. -/
theorem derived_dirs_exist_witness :
    ({ FnmConfig.default with base_dir := some ["b"] } :
        FnmConfig).base_dir_with_default ⟨none, none⟩ [] = .ok (["b"], []) ∧
    ((∃ fs1, ({ FnmConfig.default with base_dir := some ["b"] } :
          FnmConfig).installations_dir ⟨none, none⟩ [] =
        .ok (pathJoin ["b"] "node-versions", fs1) ∧
      pathExists fs1 (pathJoin ["b"] "node-versions") = true ∧
      isUnder ["b"] (pathJoin ["b"] "node-versions") = true) ∧
    (∃ fs2, ({ FnmConfig.default with base_dir := some ["b"] } :
          FnmConfig).aliases_dir ⟨none, none⟩ [] =
        .ok (pathJoin ["b"] "aliases", fs2) ∧
      pathExists fs2 (pathJoin ["b"] "aliases") = true ∧
      isUnder ["b"] (pathJoin ["b"] "aliases") = true) ∧
    (∃ fs3, ({ FnmConfig.default with base_dir := some ["b"] } :
          FnmConfig).default_version_dir ⟨none, none⟩ [] =
        .ok (pathJoin (pathJoin ["b"] "aliases") "default", fs3) ∧
      pathExists fs3 (pathJoin ["b"] "aliases") = true ∧
      isUnder ["b"] (pathJoin (pathJoin ["b"] "aliases") "default") = true)) :=
  ⟨rfl, derived_dirs_exist _ ⟨none, none⟩ [] ["b"] [] rfl⟩

/-- C5 counterexample: the default-constructed configuration does not have
mirror `https://nodejs.org/dist` — `impl Default` parses
`https://nodejs.org/dist/`, with a trailing slash, a distinct URL. -/
theorem default_mirror_counterexample :
    ¬ (FnmConfig.default.node_dist_mirror = ⟨"https://nodejs.org/dist"⟩ ∧
       FnmConfig.default.log_level = .info ∧
       FnmConfig.default.version_file_strategy = .local ∧
       FnmConfig.default.base_dir = none) := by
  intro hcl
  exact absurd hcl.1 (by decide)

/-- C5 (amended): the default-constructed configuration has mirror
`https://nodejs.org/dist/` (trailing slash), log level `info`, version-file
strategy `local`, and no base-directory override; a configuration built by
the flag/env parser from empty sources instead gets the structopt default
mirror `https://nodejs.org/dist` (no trailing slash). -/
theorem default_config_fields :
    FnmConfig.default.node_dist_mirror = ⟨"https://nodejs.org/dist/"⟩ ∧
    FnmConfig.default.log_level = .info ∧
    FnmConfig.default.version_file_strategy = .local ∧
    FnmConfig.default.base_dir = none ∧
    constructConfig ⟨none, none, none, none, none, none, none, none, none,
        none, none, none⟩ =
      .ok { node_dist_mirror := ⟨"https://nodejs.org/dist"⟩,
            base_dir := none, multishell_path := none, log_level := .info,
            arch := Arch.host, version_file_strategy := .local } :=
  ⟨rfl, rfl, rfl, rfl, rfl⟩

/-- C6: whenever the base directory resolves, the derived paths satisfy the
exact equations: `installations_dir` is base joined with `node-versions`,
`aliases_dir` is base joined with `aliases`, and `default_version_dir` is
`aliases_dir` joined with `default`. -/
theorem derived_dirs_equations (c : FnmConfig) (env : HostEnv) (fs : FS)
    (base : FilePath') (fsb : FS)
    (h : c.base_dir_with_default env fs = .ok (base, fsb)) :
    (∃ fs1, c.installations_dir env fs =
      .ok (pathJoin base "node-versions", fs1)) ∧
    (∃ fs2, c.aliases_dir env fs = .ok (pathJoin base "aliases", fs2)) ∧
    (∀ p2 fs2, c.aliases_dir env fs = .ok (p2, fs2) →
      c.default_version_dir env fs = .ok (pathJoin p2 "default", fs2)) := by
  refine ⟨⟨(ensureExistsSilently (pathJoin base "node-versions") fsb).2, ?_⟩,
    ⟨(ensureExistsSilently (pathJoin base "aliases") fsb).2, ?_⟩, ?_⟩
  · unfold FnmConfig.installations_dir
    rw [h]
    exact congrArg Resolution.ok (ensure_eq _ _)
  · unfold FnmConfig.aliases_dir
    rw [h]
    exact congrArg Resolution.ok (ensure_eq _ _)
  · intro p2 fs2 ha
    unfold FnmConfig.default_version_dir
    rw [ha]

/-- Witness for C6 with the base directory overridden to `/b` on an empty
filesystem. -/
theorem derived_dirs_equations_witness :
    ({ FnmConfig.default with base_dir := some ["b"] } :
        FnmConfig).base_dir_with_default ⟨none, none⟩ [] = .ok (["b"], []) ∧
    ((∃ fs1, ({ FnmConfig.default with base_dir := some ["b"] } :
          FnmConfig).installations_dir ⟨none, none⟩ [] =
        .ok (pathJoin ["b"] "node-versions", fs1)) ∧
    (∃ fs2, ({ FnmConfig.default with base_dir := some ["b"] } :
          FnmConfig).aliases_dir ⟨none, none⟩ [] =
        .ok (pathJoin ["b"] "aliases", fs2)) ∧
    (∀ p2 fs2, ({ FnmConfig.default with base_dir := some ["b"] } :
          FnmConfig).aliases_dir ⟨none, none⟩ [] = .ok (p2, fs2) →
      ({ FnmConfig.default with base_dir := some ["b"] } :
          FnmConfig).default_version_dir ⟨none, none⟩ [] =
        .ok (pathJoin p2 "default", fs2))) :=
  ⟨rfl, derived_dirs_equations _ ⟨none, none⟩ [] ["b"] [] rfl⟩

/-- Construction succeeds exactly when every resolved value parses. -/
theorem constructConfig_ok_iff (s : RawSources) :
    (∃ cfg, constructConfig s = .ok cfg) ↔
      (∃ u, Url.parse (resolvedMirrorStr s) = .ok u) ∧
      (∃ l, LogLevel.parse (resolvedLogLevelStr s) = .ok l) ∧
      (∃ a, Arch.parse (resolvedArchStr s) = .ok a) ∧
      (∃ v, VersionFileStrategy.parse (resolvedStrategyStr s) = .ok v) := by
  unfold constructConfig
  rcases hu : Url.parse (resolvedMirrorStr s) with e | u <;>
    rcases hl : LogLevel.parse (resolvedLogLevelStr s) with e2 | l <;>
      rcases ha : Arch.parse (resolvedArchStr s) with e3 | a <;>
        rcases hv : VersionFileStrategy.parse (resolvedStrategyStr s)
          with e4 | v <;>
          simp

/-- C8: an unrecognized token for log level, architecture, or version-file
strategy parses to an error identifying the full accepted set; a malformed
mirror value parses to a URL-parse error; and construction fails outright —
no field falls back to its default — whenever any resolved value fails to
parse. -/
theorem invalid_explicit_values_rejected :
    (∀ t, t ∉ LogLevel.table.map Prod.fst →
      LogLevel.parse t =
        .error (.invalidEnumToken "log-level" t
          (LogLevel.table.map Prod.fst))) ∧
    (∀ t, t ∉ Arch.table.map Prod.fst →
      Arch.parse t =
        .error (.invalidEnumToken "arch" t (Arch.table.map Prod.fst))) ∧
    (∀ t, t ∉ VersionFileStrategy.table.map Prod.fst →
      VersionFileStrategy.parse t =
        .error (.invalidEnumToken "version-file-strategy" t
          (VersionFileStrategy.table.map Prod.fst))) ∧
    (∀ u, isValidAbsoluteUrl u = false →
      Url.parse u = .error (.urlParseError u)) ∧
    (∀ s : RawSources,
      ((∃ e, Url.parse (resolvedMirrorStr s) = .error e) ∨
       (∃ e, LogLevel.parse (resolvedLogLevelStr s) = .error e) ∨
       (∃ e, Arch.parse (resolvedArchStr s) = .error e) ∨
       (∃ e, VersionFileStrategy.parse (resolvedStrategyStr s) = .error e)) →
      ∃ e, constructConfig s = .error e) := by
  refine ⟨fun t ht => enumParse_not_mem _ _ t ht,
    fun t ht => enumParse_not_mem _ _ t ht,
    fun t ht => enumParse_not_mem _ _ t ht,
    fun u hu => by simp [Url.parse, hu],
    ?_⟩
  intro s hbad
  cases hc : constructConfig s with
  | error e => exact ⟨e, rfl⟩
  | ok cfg =>
    exfalso
    obtain ⟨hu, hl, ha, hv⟩ := (constructConfig_ok_iff s).mp ⟨cfg, hc⟩
    rcases hbad with ⟨e, he⟩ | ⟨e, he⟩ | ⟨e, he⟩ | ⟨e, he⟩
    · simp [he] at hu
    · simp [he] at hl
    · simp [he] at ha
    · simp [he] at hv

/-- A source set whose explicit log-level flag holds an unrecognized
token. -/
def badSources : RawSources :=
  ⟨none, none, none, none, none, none, some "verbose", none, none, none,
    none, none⟩

/-- Witness for C8: the token `verbose` and the malformed URL `nodejs.org`
are rejected, and construction from `badSources` fails. -/
theorem invalid_explicit_values_rejected_witness :
    ("verbose" ∉ LogLevel.table.map Prod.fst) ∧
    LogLevel.parse "verbose" =
      .error (.invalidEnumToken "log-level" "verbose"
        (LogLevel.table.map Prod.fst)) ∧
    isValidAbsoluteUrl "nodejs.org" = false ∧
    Url.parse "nodejs.org" = .error (.urlParseError "nodejs.org") ∧
    (∃ e, constructConfig badSources = .error e) :=
  ⟨by decide, invalid_explicit_values_rejected.1 "verbose" (by decide),
    rfl, invalid_explicit_values_rejected.2.2.2.1 "nodejs.org" rfl,
    invalid_explicit_values_rejected.2.2.2.2 badSources
      (Or.inr (Or.inl ⟨_, rfl⟩))⟩

/-- C9: field resolution follows strict three-tier precedence — an explicit
flag value overrides an environment-variable value, which overrides the
compiled-in default (for optional fields: flag over env over absent) — and
every field of a successfully constructed configuration is the parse of its
resolved value. -/
theorem field_resolution_precedence :
    (∀ (v : String) (e : Option String) (d : String),
      resolveField (some v) e d = v) ∧
    (∀ (v d : String), resolveField none (some v) d = v) ∧
    (∀ d : String, resolveField none none d = d) ∧
    (∀ (v : String) (e : Option String),
      resolveOptField (some v) e = some v) ∧
    (∀ e : Option String, resolveOptField none e = e) ∧
    (∀ (s : RawSources) (cfg : FnmConfig), constructConfig s = .ok cfg →
      Url.parse (resolvedMirrorStr s) = .ok cfg.node_dist_mirror ∧
      LogLevel.parse (resolvedLogLevelStr s) = .ok cfg.log_level ∧
      Arch.parse (resolvedArchStr s) = .ok cfg.arch ∧
      VersionFileStrategy.parse (resolvedStrategyStr s) =
        .ok cfg.version_file_strategy ∧
      cfg.base_dir =
        (resolveOptField s.flag_base_dir s.env_base_dir).map pathOfString ∧
      cfg.multishell_path =
        (resolveOptField s.flag_multishell_path
          s.env_multishell_path).map pathOfString) := by
  refine ⟨fun v e d => rfl, fun v d => rfl, fun d => rfl,
    fun v e => rfl, fun e => rfl, ?_⟩
  intro s cfg h
  unfold constructConfig at h
  split at h
  · exact Except.noConfusion h
  · rename_i u hu
    split at h
    · exact Except.noConfusion h
    · rename_i l hl
      split at h
      · exact Except.noConfusion h
      · rename_i a ha
        split at h
        · exact Except.noConfusion h
        · rename_i v hv
          injection h with h2
          subst h2
          exact ⟨hu, hl, ha, hv, rfl, rfl⟩

/-- A source set where the log-level flag and env var disagree and all
other sources are absent. -/
def sampleSources : RawSources :=
  ⟨none, none, none, none, none, none, some "debug", some "error", none,
    none, none, none⟩

/-- The configuration sampleSources constructs: the flag value `debug` wins
over the env value `error`; everything else is the compiled-in default. -/
def sampleConfig : FnmConfig where
  node_dist_mirror := ⟨"https://nodejs.org/dist"⟩
  base_dir := none
  multishell_path := none
  log_level := .debug
  arch := Arch.host
  version_file_strategy := .local

/-- Witness for C9: on `sampleSources` the flag wins over the env var and
every constructed field is the parse of its resolved value. -/
theorem field_resolution_precedence_witness :
    resolveField (some "debug") (some "error") "info" = "debug" ∧
    constructConfig sampleSources = .ok sampleConfig ∧
    (Url.parse (resolvedMirrorStr sampleSources) =
        .ok sampleConfig.node_dist_mirror ∧
      LogLevel.parse (resolvedLogLevelStr sampleSources) =
        .ok sampleConfig.log_level ∧
      Arch.parse (resolvedArchStr sampleSources) = .ok sampleConfig.arch ∧
      VersionFileStrategy.parse (resolvedStrategyStr sampleSources) =
        .ok sampleConfig.version_file_strategy ∧
      sampleConfig.base_dir =
        (resolveOptField sampleSources.flag_base_dir
          sampleSources.env_base_dir).map pathOfString ∧
      sampleConfig.multishell_path =
        (resolveOptField sampleSources.flag_multishell_path
          sampleSources.env_multishell_path).map pathOfString) :=
  ⟨rfl, rfl,
    field_resolution_precedence.2.2.2.2.2 sampleSources sampleConfig rfl⟩
